import Mathlib

/-!
Verification of the via session-lifecycle and patch-dispatch engine.

Shallow embedding of the Go sources: the patch mailbox, reactive signals
and sync of src/context.go and src/signal.go, and the action gateway,
reaper and registry of the root application file (src/unnamed/part_000).
Durations are modelled as integers of nanoseconds (Go time.Duration),
bytes as natural numbers, and the per-request verdicts of token-bucket
limiters as boolean inputs, since they depend on the bucket clock.
-/

namespace Via

/-- Values held by a reactive signal. Go stores an -any- and serializes
with a percent-v format verb; we model the JSON-scalar cases that reach
the signal map (structured inputs are pre-serialized to strings at
declaration time, per the Signal constructor in src/context.go). -/
inductive GoVal where
  | str (s : String)
  | int (n : Int)
  | boolean (b : Bool)
deriving DecidableEq, Repr

/-- Go fmt percent-v rendering of a stored signal value. -/
def GoVal.sprint : GoVal → String
  | GoVal.str s => s
  | GoVal.int n => toString n
  | GoVal.boolean b => if b then "true" else "false"

/-- The signal struct of src/signal.go: identifier, value, dirty flag,
and last injection error. -/
structure signal where
  id : String
  val : GoVal
  changed : Bool
  err : Option String
deriving DecidableEq, Repr

/-- The reactive-value map of one context (the signals sync.Map of
src/context.go), as an association list keyed by signal id. -/
abbrev SigMap := List signal

/-- Patch kinds, from the patchType constants of the root file. -/
inductive PatchType where
  | elements
  | signals
  | script
  | redirect
  | replaceURL
deriving DecidableEq, Repr

/-- The patch struct of the root file: a tagged string payload. -/
structure Patch where
  typ : PatchType
  content : String
deriving DecidableEq, Repr

/-- Capacity of the patch mailbox: newContext in src/context.go makes
the patch channel with buffer size 1. -/
def patchChanCap : Nat := 1

/-- sendPatch from src/context.go: a select with a default case on the
buffered channel, so the patch is appended when the buffer has room and
dropped otherwise; the caller never blocks. -/
def sendPatch (box : List Patch) (p : Patch) : List Patch :=
  if box.length < patchChanCap then box ++ [p] else box

/-- prepareSignalsForPatch from src/context.go: walk the signal map,
skip signals carrying an error (logged as out of sync), and collect each
dirty signal rendered with the percent-v verb. -/
def prepareSignalsForPatch (m : SigMap) : List (String × String) :=
  m.filterMap (fun s =>
    if s.err = none then
      if s.changed then some (s.id, s.val.sprint) else none
    else none)

/-- JSON-object encoding of the outgoing signal delta (json.Marshal of
the map in Sync). -/
def encodeSignals (delta : List (String × String)) : String :=
  "\x7b" ++ String.intercalate ","
    (delta.map (fun kv => "\"" ++ kv.1 ++ "\":\"" ++ kv.2 ++ "\"")) ++ "\x7d"

/-- The sequence of patches Sync (src/context.go) submits to sendPatch:
nothing when rendering the view fails (the error is logged and the sync
aborts), otherwise the elements patch first and then, only when the
dirty delta is non-empty, the signal-delta patch. -/
def syncPatches (render : Except String String) (m : SigMap) : List Patch :=
  match render with
  | Except.error _ => []
  | Except.ok html =>
    let updatedSigs := prepareSignalsForPatch m
    if updatedSigs.length ≠ 0 then
      [⟨PatchType.elements, html⟩, ⟨PatchType.signals, encodeSignals updatedSigs⟩]
    else
      [⟨PatchType.elements, html⟩]

/-- Sync from src/context.go as a state transition: it submits the
patches of syncPatches and leaves the signal map untouched (the body
only reads the changed flags; no assignment clears them). -/
def Sync (render : Except String String) (m : SigMap) : List Patch × SigMap :=
  (syncPatches render m, m)

/-- injectSignals from src/context.go, on the signal map: every inbound
name either overwrites an existing signal and clears its dirty flag, or
is stored as a fresh signal with a false dirty flag and no error. -/
def injectSignals (m : SigMap) (sigs : List (String × GoVal)) : SigMap :=
  sigs.foldl (fun acc kv =>
    if (acc.find? (fun s => s.id = kv.1)).isSome then
      acc.map (fun s =>
        if s.id = kv.1 then { s with val := kv.2, changed := false } else s)
    else acc ++ [⟨kv.1, kv.2, false, none⟩]) m

/-- The Signal constructor of src/context.go, on the signal map: a nil
input returns an errored placeholder that is never stored; any other
input is stored dirty and error-free (structured inputs arrive already
serialized as a GoVal string). -/
def declareSignal (m : SigMap) (sigID : String) (v : Option GoVal) :
    SigMap × signal :=
  match v with
  | none => (m, ⟨sigID, GoVal.str "error", false, some "nil signal value"⟩)
  | some val =>
    let sig : signal := ⟨sigID, val, true, none⟩
    (m.filter (fun s => s.id ≠ sigID) ++ [sig], sig)

/-- SetValue from src/signal.go, on the signal map: update the value,
set the dirty flag, clear the error. -/
def setValue (m : SigMap) (sigID : String) (v : GoVal) : SigMap :=
  m.map (fun s =>
    if s.id = sigID then { s with val := v, changed := true, err := none } else s)

/-- Invariant of reachable signal maps: no stored signal carries an
error (errored placeholders are returned but never stored). -/
def errFree (m : SigMap) : Prop := ∀ s ∈ m, s.err = none

theorem errFree_nil : errFree [] := by
  intro s hs; cases hs

theorem errFree_injectSignals (m : SigMap) (sigs : List (String × GoVal))
    (h : errFree m) : errFree (injectSignals m sigs) := by
  induction sigs generalizing m with
  | nil => exact h
  | cons kv rest ih =>
    simp only [injectSignals, List.foldl_cons]
    apply ih
    by_cases hf : (m.find? (fun s => s.id = kv.1)).isSome
    · simp only [injectSignals, hf, if_true]
      intro s hs
      rcases List.mem_map.mp hs with ⟨t, ht, rfl⟩
      by_cases hid : t.id = kv.1
      · simp [hid, h t ht]
      · simp [hid, h t ht]
    · simp only [injectSignals, hf, if_false]
      intro s hs
      rcases List.mem_append.mp hs with h1 | h1
      · exact h s h1
      · simp only [List.mem_singleton] at h1
        subst h1; rfl

theorem errFree_declareSignal (m : SigMap) (sigID : String) (v : Option GoVal)
    (h : errFree m) : errFree (declareSignal m sigID v).1 := by
  cases v with
  | none => exact h
  | some val =>
    intro s hs
    rcases List.mem_append.mp hs with h1 | h1
    · exact h s (List.mem_of_mem_filter h1)
    · simp only [List.mem_singleton] at h1
      subst h1; rfl

theorem errFree_setValue (m : SigMap) (sigID : String) (v : GoVal)
    (h : errFree m) : errFree (setValue m sigID v) := by
  intro s hs
  rcases List.mem_map.mp hs with ⟨t, ht, rfl⟩
  by_cases hid : t.id = sigID
  · simp [hid]
  · simp [hid, h t ht]

/-- ConstantTimeCompare from crypto/subtle, used by the action gateway
for the anti-forgery token: zero when the lengths differ, otherwise the
bitwise or of all byte xors is accumulated over the whole input and the
result is 1 exactly when it is zero. -/
def constantTimeCompare (x y : List Nat) : Nat :=
  if x.length ≠ y.length then 0
  else if (List.zipWith (fun a b => a ^^^ b) x y).foldl (fun v w => v ||| w) 0 = 0
  then 1 else 0

instance : DecidableEq (Except String Unit) := fun a b =>
  match a, b with
  | Except.ok x, Except.ok y =>
    isTrue (by cases x; cases y; rfl)
  | Except.ok _, Except.error _ => isFalse (fun h => by cases h)
  | Except.error _, Except.ok _ => isFalse (fun h => by cases h)
  | Except.error x, Except.error y =>
    if h : x = y then isTrue (by rw [h])
    else isFalse (fun hh => by cases hh; exact h rfl)

/-- The actionEntry struct of src/ratelimit.go: the callback and the
optional dedicated limiter. The callback is modelled by its outcome (ok,
or a panic carrying a value); the limiter by its presence, since the
verdict of an Allow call depends on the bucket clock and is therefore an
input of the request handler. -/
structure actionEntry where
  fn : Except String Unit
  hasLimiter : Bool
deriving DecidableEq, Repr

/-- The Context struct: the fields of src/context.go together with the
fields the root file and the tests read on it (csrfToken, actionLimiter,
sseConnected, createdAt, subscriptions). Channels of capacity one are
modelled by the count of queued items; the limiter again by presence. -/
structure Context where
  id : String
  route : String
  csrfToken : List Nat
  actionLimiter : Bool
  actionRegistry : List (String × actionEntry)
  signals : SigMap
  patchChan : List Patch
  ctxDisposedChan : Nat
  sseConnected : Bool
  createdAt : Int
  subscriptions : List Nat
deriving DecidableEq, Repr

/-- The session registry of the root application: a map from context id
to context, modelled as a list of contexts looked up by id. -/
abbrev Registry := List Context

/-- getCtx from the root file: registry lookup; a missing id yields the
not-found error, modelled as none. -/
def getCtx (reg : Registry) (cID : String) : Option Context :=
  reg.find? (fun c => c.id = cID)

/-- registerCtx from the root file: map assignment, overwriting any
context already stored under the same id. -/
def registerCtx (reg : Registry) (c : Context) : Registry :=
  c :: reg.filter (fun x => x.id ≠ c.id)

/-- unregisterCtx from the root file: a context with an empty id is
refused (logged), otherwise its id is deleted from the map. -/
def unregisterCtx (reg : Registry) (c : Context) : Registry :=
  if c.id = "" then reg else reg.filter (fun x => x.id ≠ c.id)

/-- stopAllRoutines from src/context.go: a non-blocking send on the
capacity-one disposal channel, a no-op when a signal is already queued. -/
def stopAllRoutines (c : Context) : Context :=
  if c.ctxDisposedChan < 1 then { c with ctxDisposedChan := c.ctxDisposedChan + 1 }
  else c

/-- Modelled from the spec: the dispose method of the current Context is
absent from src (only its callers cleanupCtx and drainAllContexts in the
root file, and the tests, mention it). Per section 4.2 of the spec it
signals the disposal channel non-blocking (already-signaled is a no-op,
exactly stopAllRoutines of src/context.go) and detaches all
subscriptions. -/
def dispose (c : Context) : Context :=
  { stopAllRoutines c with subscriptions := [] }

/-- cleanupCtx from the root file: dispose the context, then remove it
from the registry. Returns the updated registry together with the
disposed context object (which in Go persists behind its pointer). -/
def cleanupCtx (reg : Registry) (c : Context) : Registry × Context :=
  let c2 := dispose c
  (unregisterCtx reg c2, c2)

/-- One disposal-and-unregister round, as an endomap on the pair of the
registry and the context object, for iterating cleanupCtx. -/
def cleanupStep (p : Registry × Context) : Registry × Context :=
  cleanupCtx p.1 p.2

/-- Iterated cleanup: invoking the disposal path n times over. -/
def cleanupIter : Nat → Registry × Context → Registry × Context
  | 0, p => p
  | n + 1, p => cleanupIter n (cleanupStep p)

/-- The loop over the selected orphans in reapOrphanedContexts: clean up
each one in turn, collecting the disposed context objects. -/
def cleanupFold (orphans : List Context) (p : Registry × List Context) :
    Registry × List Context :=
  orphans.foldl (fun acc c =>
    let r := cleanupCtx acc.1 c
    (r.1, acc.2 ++ [r.2])) p

/-- reapOrphanedContexts from the root file: under the read lock select
every context with no live streaming connection whose age exceeds the
ttl, then release the lock and clean each one up. Returns the final
registry and the disposed orphans. -/
def reapOrphanedContexts (now ttl : Int) (reg : Registry) :
    Registry × List Context :=
  let orphans := reg.filter (fun c => ¬c.sseConnected ∧ now - c.createdAt > ttl)
  cleanupFold orphans (reg, [])

/-- One nanosecond-denominated second (Go time.Duration). -/
def second : Int := 1000000000

/-- startReaper from the root file, reduced to its configuration logic:
none when the background loop is not started at all (negative ttl),
otherwise the effective ttl (zero selects the 30 second default) and the
tick interval (a third of the ttl, floored at 5 seconds). -/
def startReaper (ttl : Int) : Option (Int × Int) :=
  if ttl < 0 then none
  else
    let t := if ttl = 0 then 30 * second else ttl
    let i := t / 3
    let i2 := if i < 5 * second then 5 * second else i
    some (t, i2)

/-- The effect of the reaper on the registry for a configured ttl: when
startReaper declines to start, no sweep ever runs and the registry is
untouched; otherwise each tick runs reapOrphanedContexts with the
effective ttl. -/
def runReaper (ttl now : Int) (reg : Registry) : Registry :=
  match startReaper ttl with
  | none => reg
  | some te => (reapOrphanedContexts now te.1 reg).1

/-- getAction, called by the action gateway on the context. Its body is
absent from src; modelled as the map lookup of getActionFn in
src/context.go, returning the actionEntry of src/ratelimit.go that the
gateway and the rate-limit tests read. -/
def getAction (c : Context) (actionID : String) : Option actionEntry :=
  c.actionRegistry.lookup actionID

/-- The limiter gates the action gateway consults, in order. -/
inductive Gate where
  | sessionLimiter
  | entryLimiter
deriving DecidableEq, Repr

/-- Observables of one inbound action request. The status is the HTTP
status written (200 when the handler writes no error and an empty body).
The gates list records each limiter Allow call in the order made. -/
structure ActionResult where
  status : Nat
  gates : List Gate
  injected : Bool
  invoked : Bool
  panicRecovered : Option String
deriving DecidableEq, Repr

/-- Replace the stored context that shares the id of c2 (in Go this is
the pointer mutation of the context found by getCtx). -/
def updateCtx (reg : Registry) (c2 : Context) : Registry :=
  reg.map (fun x => if x.id = c2.id then c2 else x)

/-- The GET action endpoint of the root file. Inputs: the registry, the
action id from the path, the context id and anti-forgery token read from
the inbound signals, the inbound signal snapshot, and the per-request
verdicts the two limiters would return from Allow. Mirrors the handler
line by line: silent abort on unknown session; constant-time token check
with a 403 on mismatch; session-level limiter; silent abort on unknown
action; per-action limiter with a 429; then, inside the recover scope,
signal injection followed by the callback. -/
def handleAction (reg : Registry) (actionID cID : String) (token : List Nat)
    (inbound : List (String × GoVal)) (sessionAllow entryAllow : Bool) :
    ActionResult × Registry :=
  match getCtx reg cID with
  | none => (⟨200, [], false, false, none⟩, reg)
  | some c =>
    if constantTimeCompare token c.csrfToken ≠ 1 then
      (⟨403, [], false, false, none⟩, reg)
    else
      let gates1 : List Gate := if c.actionLimiter then [Gate.sessionLimiter] else []
      if c.actionLimiter ∧ sessionAllow = false then
        (⟨429, gates1, false, false, none⟩, reg)
      else
        match getAction c actionID with
        | none => (⟨200, gates1, false, false, none⟩, reg)
        | some entry =>
          let gates2 := gates1 ++ (if entry.hasLimiter then [Gate.entryLimiter] else [])
          if entry.hasLimiter ∧ entryAllow = false then
            (⟨429, gates2, false, false, none⟩, reg)
          else
            let c2 := { c with signals := injectSignals c.signals inbound }
            let reg2 := updateCtx reg c2
            match entry.fn with
            | Except.ok _ => (⟨200, gates2, true, true, none⟩, reg2)
            | Except.error p => (⟨200, gates2, true, true, some p⟩, reg2)

/-- The one-shot initial synchronization of the streaming endpoint in
the root file: after the sentinel frame the handler spawns a full Sync
unconditionally; the reconnect flag is not consulted. -/
def sseInitialSync (isReconnect : Bool) (render : Except String String)
    (m : SigMap) : List Patch :=
  syncPatches render m

theorem nat_or_eq_zero (a b : Nat) : a ||| b = 0 ↔ a = 0 ∧ b = 0 := by
  constructor
  · intro h
    refine ⟨Nat.eq_of_testBit_eq fun i => ?_, Nat.eq_of_testBit_eq fun i => ?_⟩
    · have hb := congrArg (fun n => Nat.testBit n i) h
      simp only [Nat.testBit_or, Bool.or_eq_false_iff, Nat.zero_testBit] at hb
      simp [hb.1]
    · have hb := congrArg (fun n => Nat.testBit n i) h
      simp only [Nat.testBit_or, Bool.or_eq_false_iff, Nat.zero_testBit] at hb
      simp [hb.2]
  · rintro ⟨rfl, rfl⟩
    rfl

theorem foldl_or_eq_zero (l : List Nat) (acc : Nat) :
    l.foldl (fun v w => v ||| w) acc = 0 ↔ acc = 0 ∧ ∀ a ∈ l, a = 0 := by
  induction l generalizing acc with
  | nil => simp
  | cons b t ih =>
    simp only [List.foldl_cons, ih, nat_or_eq_zero, List.mem_cons]
    constructor
    · rintro ⟨⟨h1, h2⟩, h3⟩
      exact ⟨h1, fun a ha => ha.elim (fun he => he ▸ h2) (h3 a)⟩
    · rintro ⟨h1, h2⟩
      exact ⟨⟨h1, h2 b (Or.inl rfl)⟩, fun a ha => h2 a (Or.inr ha)⟩

theorem zipWith_xor_zero_iff (x : List Nat) :
    ∀ (y : List Nat), x.length = y.length →
      ((∀ a ∈ List.zipWith (fun a b => a ^^^ b) x y, a = 0) ↔ x = y) := by
  induction x with
  | nil =>
    intro y h
    cases y with
    | nil => simp
    | cons b u => simp at h
  | cons a t ih =>
    intro y h
    cases y with
    | nil => simp at h
    | cons b u =>
      simp only [List.length_cons, Nat.add_right_cancel_iff] at h
      simp only [List.zipWith_cons_cons, List.mem_cons, List.cons.injEq]
      constructor
      · intro hz
        exact ⟨Nat.xor_eq_zero.mp (hz _ (Or.inl rfl)),
          (ih u h).mp (fun c hc => hz c (Or.inr hc))⟩
      · rintro ⟨rfl, rfl⟩
        intro c hc
        rcases hc with rfl | hc
        · exact Nat.xor_eq_zero.mpr rfl
        · exact (ih t rfl).mpr rfl c hc

theorem constantTimeCompare_eq_one_iff (x y : List Nat) :
    constantTimeCompare x y = 1 ↔ x = y := by
  by_cases hl : x.length = y.length
  · by_cases hz :
      (List.zipWith (fun a b => a ^^^ b) x y).foldl (fun v w => v ||| w) 0 = 0
    · have h1 : constantTimeCompare x y = 1 := by
        simp [constantTimeCompare, hl, hz]
      have hx : x = y := (zipWith_xor_zero_iff x y hl).mp
        (fun a ha => ((foldl_or_eq_zero _ 0).mp hz).2 a ha)
      exact iff_of_true h1 hx
    · have h1 : constantTimeCompare x y = 0 := by
        simp [constantTimeCompare, hl, hz]
      have hx : x ≠ y := by
        intro he
        exact hz ((foldl_or_eq_zero _ 0).mpr
          ⟨rfl, (zipWith_xor_zero_iff x y hl).mpr he⟩)
      exact iff_of_false (by simp [h1]) hx
  · have h1 : constantTimeCompare x y = 0 := by
      simp [constantTimeCompare, hl]
    have hx : x ≠ y := fun he => hl (he ▸ rfl)
    exact iff_of_false (by simp [h1]) hx

/-- C1: for an action request whose session id resolves to a live
session, a supplied anti-forgery token that is not byte-for-byte equal
to the session token makes the handler write HTTP 403 and stop: no
inbound value injection, no callback invocation, registry untouched.
Moreover the comparison primitive accepts exactly on whole-token
equality, leaking nothing about which part mismatched. -/
theorem c1_csrf_mismatch_forbidden (reg : Registry) (actionID cID : String)
    (token : List Nat) (inbound : List (String × GoVal))
    (sessionAllow entryAllow : Bool) (c : Context)
    (hc : getCtx reg cID = some c) (hne : token ≠ c.csrfToken) :
    (handleAction reg actionID cID token inbound sessionAllow entryAllow).1.status = 403 ∧
    (handleAction reg actionID cID token inbound sessionAllow entryAllow).1.injected = false ∧
    (handleAction reg actionID cID token inbound sessionAllow entryAllow).1.invoked = false ∧
    (handleAction reg actionID cID token inbound sessionAllow entryAllow).2 = reg ∧
    (∀ a b : List Nat, constantTimeCompare a b = 1 ↔ a = b) := by
  have hcc : constantTimeCompare token c.csrfToken ≠ 1 := by
    intro h1
    exact hne ((constantTimeCompare_eq_one_iff _ _).mp h1)
  refine ⟨?_, ?_, ?_, ?_, fun a b => constantTimeCompare_eq_one_iff a b⟩ <;>
    simp [handleAction, hc, hcc]

/-- Context used by the concrete witnesses. -/
def wCtx : Context :=
  { id := "c-1", route := "/", csrfToken := [1, 2], actionLimiter := false,
    actionRegistry := [("a1", ⟨Except.ok (), false⟩)], signals := [],
    patchChan := [], ctxDisposedChan := 0, sseConnected := false,
    createdAt := 0, subscriptions := [] }

theorem c1_witness :
    getCtx [wCtx] "c-1" = some wCtx ∧ [9, 9] ≠ wCtx.csrfToken ∧
    ((handleAction [wCtx] "a1" "c-1" [9, 9] [] true true).1.status = 403 ∧
     (handleAction [wCtx] "a1" "c-1" [9, 9] [] true true).1.injected = false ∧
     (handleAction [wCtx] "a1" "c-1" [9, 9] [] true true).1.invoked = false ∧
     (handleAction [wCtx] "a1" "c-1" [9, 9] [] true true).2 = [wCtx] ∧
     (∀ a b : List Nat, constantTimeCompare a b = 1 ↔ a = b)) :=
  ⟨by decide, by decide,
    c1_csrf_mismatch_forbidden [wCtx] "a1" "c-1" [9, 9] [] true true wCtx
      (by decide) (by decide)⟩

/-- C2: the mailbox is bounded at one outstanding patch (the channel is
created with buffer size 1), an enqueue onto a full mailbox drops the
patch and leaves the mailbox unchanged (sendPatch is a total function,
so the producer never blocks), and any sequence of sends starting from
the empty mailbox keeps at most one patch queued. -/
theorem c2_mailbox_bounded_drop (box : List Patch) (p : Patch) (ps : List Patch) :
    patchChanCap = 1 ∧
    (1 ≤ box.length → sendPatch box p = box) ∧
    (ps.foldl sendPatch []).length ≤ 1 := by
  refine ⟨rfl, ?_, ?_⟩
  · intro h
    have hn : ¬ box.length < patchChanCap := by
      show ¬ box.length < 1
      omega
    simp [sendPatch, hn]
  · have key : ∀ (qs b : List Patch), b.length ≤ 1 →
        (qs.foldl sendPatch b).length ≤ 1 := by
      intro qs
      induction qs with
      | nil => intro b hb; simpa using hb
      | cons q t ih =>
        intro b hb
        simp only [List.foldl_cons]
        apply ih
        by_cases hlt : b.length < patchChanCap
        · have hs : sendPatch b q = b ++ [q] := by simp [sendPatch, hlt]
          have hb0 : b.length < 1 := hlt
          rw [hs]
          simp only [List.length_append, List.length_cons, List.length_nil]
          omega
        · have hs : sendPatch b q = b := by simp [sendPatch, hlt]
          rw [hs]
          exact hb
    exact key ps [] (by simp)

theorem c2_witness :
    patchChanCap = 1 ∧
    (1 ≤ [Patch.mk PatchType.elements "x"].length →
      sendPatch [Patch.mk PatchType.elements "x"] (Patch.mk PatchType.script "y") =
        [Patch.mk PatchType.elements "x"]) ∧
    (([Patch.mk PatchType.elements "x",
       Patch.mk PatchType.script "y"].foldl sendPatch []).length ≤ 1) :=
  c2_mailbox_bounded_drop [Patch.mk PatchType.elements "x"]
    (Patch.mk PatchType.script "y")
    [Patch.mk PatchType.elements "x", Patch.mk PatchType.script "y"]

theorem dispose_id (c : Context) : (dispose c).id = c.id := by
  unfold dispose stopAllRoutines
  by_cases h : c.ctxDisposedChan < 1 <;> simp [h]

theorem dispose_chan (c : Context) : 1 ≤ (dispose c).ctxDisposedChan := by
  unfold dispose stopAllRoutines
  by_cases h : c.ctxDisposedChan < 1 <;> simp [h] <;> omega

theorem dispose_subs (c : Context) : (dispose c).subscriptions = [] := by
  unfold dispose stopAllRoutines
  by_cases h : c.ctxDisposedChan < 1 <;> simp [h]

theorem dispose_dispose (c : Context) : dispose (dispose c) = dispose c := by
  unfold dispose stopAllRoutines
  by_cases h : c.ctxDisposedChan < 1
  · simp [h]
  · simp [h]

theorem unregister_idem (reg : Registry) (c : Context) :
    unregisterCtx (unregisterCtx reg c) c = unregisterCtx reg c := by
  unfold unregisterCtx
  by_cases h : c.id = ""
  · simp [h]
  · simp only [h, if_false, List.filter_filter]
    congr 1
    funext a
    exact Bool.and_self _

theorem cleanupStep_idem (p : Registry × Context) :
    cleanupStep (cleanupStep p) = cleanupStep p := by
  show cleanupCtx (cleanupCtx p.1 p.2).1 (cleanupCtx p.1 p.2).2 = cleanupCtx p.1 p.2
  unfold cleanupCtx
  simp only [dispose_dispose, unregister_idem]

theorem cleanupIter_succ (n : Nat) (p : Registry × Context) :
    cleanupIter (n + 1) p = cleanupStep p := by
  induction n generalizing p with
  | zero => rfl
  | succ m ih =>
    show cleanupIter (m + 1) (cleanupStep p) = cleanupStep p
    rw [ih (cleanupStep p), cleanupStep_idem]

theorem find?_filter_of_imp {α : Type} (l : List α) (p q : α → Bool)
    (h : ∀ x, p x = true → q x = true) :
    (l.filter q).find? p = l.find? p := by
  induction l with
  | nil => rfl
  | cons a t ih =>
    by_cases hq : q a = true
    · by_cases hp : p a = true <;>
        simp [List.filter_cons, hq, List.find?_cons, hp, ih]
    · have hp : ¬ p a = true := fun hpa => hq (h a hpa)
      simp [List.filter_cons, hq, List.find?_cons, hp, ih]

theorem getCtx_unregister (reg : Registry) (c : Context) (h : c.id ≠ "") :
    getCtx (unregisterCtx reg c) c.id = none := by
  unfold unregisterCtx getCtx
  simp only [h, if_false]
  rw [List.find?_eq_none]
  intro x hx
  have hm := List.of_mem_filter hx
  simp only [decide_not, Bool.not_eq_true', decide_eq_false_iff_not] at hm
  simp [hm]

/-- C3: disposal is idempotent. Invoking the cleanup path any number of
times is a total function equal to a single invocation; starting from a
context whose disposal channel holds no signal, the channel ends with
exactly one queued signal (the non-blocking send is a no-op once
signaled), every subscription is detached, and the registry lookup of
the id reports not-found afterwards. -/
theorem c3_dispose_idempotent (reg : Registry) (c : Context) (n : Nat)
    (hid : c.id ≠ "") (h0 : c.ctxDisposedChan = 0) :
    cleanupIter (n + 1) (reg, c) = cleanupIter 1 (reg, c) ∧
    getCtx (cleanupIter (n + 1) (reg, c)).1 c.id = none ∧
    (cleanupIter (n + 1) (reg, c)).2.ctxDisposedChan = 1 ∧
    (cleanupIter (n + 1) (reg, c)).2.subscriptions = [] := by
  have hs := cleanupIter_succ n (reg, c)
  have h1 := cleanupIter_succ 0 (reg, c)
  refine ⟨hs.trans h1.symm, ?_, ?_, ?_⟩
  · rw [hs]
    show getCtx (unregisterCtx reg (dispose c)) c.id = none
    have hd : (dispose c).id = c.id := dispose_id c
    rw [← hd]
    exact getCtx_unregister reg (dispose c) (by rw [hd]; exact hid)
  · rw [hs]
    show (dispose c).ctxDisposedChan = 1
    unfold dispose stopAllRoutines
    simp [h0]
  · rw [hs]
    exact dispose_subs c

theorem c3_witness :
    wCtx.id ≠ "" ∧ wCtx.ctxDisposedChan = 0 ∧
    (cleanupIter 3 ([wCtx], wCtx) = cleanupIter 1 ([wCtx], wCtx) ∧
     getCtx (cleanupIter 3 ([wCtx], wCtx)).1 wCtx.id = none ∧
     (cleanupIter 3 ([wCtx], wCtx)).2.ctxDisposedChan = 1 ∧
     (cleanupIter 3 ([wCtx], wCtx)).2.subscriptions = []) :=
  ⟨by decide, rfl, c3_dispose_idempotent [wCtx] wCtx 2 (by decide) rfl⟩

theorem cleanupFold_cons (o : Context) (t : List Context) (reg : Registry)
    (ds : List Context) :
    cleanupFold (o :: t) (reg, ds) =
      cleanupFold t (unregisterCtx reg (dispose o), ds ++ [dispose o]) := rfl

theorem mem_unregister (reg : Registry) (c x : Context)
    (hx : x ∈ unregisterCtx reg c) : x ∈ reg := by
  unfold unregisterCtx at hx
  by_cases h : c.id = ""
  · simpa [h] using hx
  · simp only [h, if_false] at hx
    exact List.mem_of_mem_filter hx

theorem cleanupFold_subset (orphans : List Context) :
    ∀ (reg : Registry) (ds : List Context) (x : Context),
      x ∈ (cleanupFold orphans (reg, ds)).1 → x ∈ reg := by
  induction orphans with
  | nil => intro reg ds x hx; exact hx
  | cons o t ih =>
    intro reg ds x hx
    rw [cleanupFold_cons] at hx
    exact mem_unregister _ _ _ (ih _ _ _ hx)

theorem getCtx_eq_none_iff (reg : Registry) (cID : String) :
    getCtx reg cID = none ↔ ∀ x ∈ reg, x.id ≠ cID := by
  unfold getCtx
  rw [List.find?_eq_none]
  simp

theorem cleanupFold_getCtx_none (orphans : List Context) (reg : Registry)
    (ds : List Context) (cID : String) (h : getCtx reg cID = none) :
    getCtx (cleanupFold orphans (reg, ds)).1 cID = none := by
  rw [getCtx_eq_none_iff] at h ⊢
  intro x hx
  exact h x (cleanupFold_subset orphans reg ds x hx)

theorem cleanupFold_removes (orphans : List Context) :
    ∀ (reg : Registry) (ds : List Context) (o : Context),
      o ∈ orphans → o.id ≠ "" →
      getCtx (cleanupFold orphans (reg, ds)).1 o.id = none := by
  induction orphans with
  | nil => intro reg ds o ho _; cases ho
  | cons a t ih =>
    intro reg ds o ho hne
    rw [cleanupFold_cons]
    rcases List.mem_cons.mp ho with rfl | hmem
    · apply cleanupFold_getCtx_none
      have hd : (dispose o).id = o.id := dispose_id o
      rw [← hd]
      exact getCtx_unregister reg (dispose o) (by rw [hd]; exact hne)
    · exact ih _ _ o hmem hne

theorem getCtx_unregister_ne (reg : Registry) (c : Context) (cID : String)
    (h : c.id ≠ cID) :
    getCtx (unregisterCtx reg c) cID = getCtx reg cID := by
  unfold unregisterCtx getCtx
  by_cases he : c.id = ""
  · simp [he]
  · simp only [he, if_false]
    apply find?_filter_of_imp
    intro x hx
    have hxid : x.id = cID := by simpa using hx
    rw [decide_eq_true_eq, hxid]
    exact fun heq => h heq.symm

theorem cleanupFold_keeps (orphans : List Context) :
    ∀ (reg : Registry) (ds : List Context) (cID : String),
      (∀ o ∈ orphans, o.id ≠ cID) →
      getCtx (cleanupFold orphans (reg, ds)).1 cID = getCtx reg cID := by
  induction orphans with
  | nil => intro reg ds cID _; rfl
  | cons a t ih =>
    intro reg ds cID h
    rw [cleanupFold_cons, ih _ _ cID (fun o ho => h o (List.mem_cons_of_mem a ho))]
    have ha : (dispose a).id ≠ cID := by
      rw [dispose_id]
      exact h a (List.mem_cons_self a t)
    exact getCtx_unregister_ne reg (dispose a) cID ha

theorem cleanupFold_disposed (orphans : List Context) :
    ∀ (reg : Registry) (ds : List Context),
      (cleanupFold orphans (reg, ds)).2 = ds ++ orphans.map dispose := by
  induction orphans with
  | nil => intro reg ds; simp [cleanupFold]
  | cons a t ih =>
    intro reg ds
    rw [cleanupFold_cons, ih]
    simp

/-- C4: a reaper sweep with time-to-live ttl removes from the registry
every session with a false connection-alive flag whose age exceeds ttl
and disposes it (its disposed object, with the disposal channel signaled
and every subscription detached, is collected), while every session with
a true connection-alive flag survives the sweep unchanged regardless of
age. The selection is a snapshot of the registry taken before any
cleanup runs, as in the code where it happens under the read lock. -/
theorem c4_reaper_sweep (now ttl : Int) (reg : Registry)
    (hnd : (reg.map Context.id).Nodup) (hne : ∀ c ∈ reg, c.id ≠ "") :
    (∀ c ∈ reg, c.sseConnected = false → now - c.createdAt > ttl →
       getCtx (reapOrphanedContexts now ttl reg).1 c.id = none ∧
       dispose c ∈ (reapOrphanedContexts now ttl reg).2) ∧
    (∀ d ∈ (reapOrphanedContexts now ttl reg).2,
       1 ≤ d.ctxDisposedChan ∧ d.subscriptions = []) ∧
    (∀ c ∈ reg, c.sseConnected = true →
       getCtx (reapOrphanedContexts now ttl reg).1 c.id = getCtx reg c.id) := by
  have hreap : reapOrphanedContexts now ttl reg =
      cleanupFold (reg.filter (fun c => ¬c.sseConnected ∧ now - c.createdAt > ttl))
        (reg, []) := rfl
  refine ⟨?_, ?_, ?_⟩
  · intro c hc hconn hage
    have hco : c ∈ reg.filter (fun c => ¬c.sseConnected ∧ now - c.createdAt > ttl) := by
      apply List.mem_filter.mpr
      exact ⟨hc, by simp [hconn, hage]⟩
    constructor
    · rw [hreap]
      exact cleanupFold_removes _ reg [] c hco (hne c hc)
    · rw [hreap, cleanupFold_disposed]
      simp only [List.nil_append]
      exact List.mem_map_of_mem dispose hco
  · intro d hd
    rw [hreap, cleanupFold_disposed] at hd
    simp only [List.nil_append, List.mem_map] at hd
    rcases hd with ⟨o, _, rfl⟩
    exact ⟨dispose_chan o, dispose_subs o⟩
  · intro c hc hconn
    rw [hreap]
    apply cleanupFold_keeps
    intro o ho hoid
    have hom : o ∈ reg := List.mem_of_mem_filter ho
    have hop := List.of_mem_filter ho
    simp only [decide_eq_true_eq] at hop
    have hoc : o = c := List.inj_on_of_nodup_map hnd hom hc hoid
    rw [hoc, hconn] at hop
    simp at hop

/-- Orphaned context for the reaper witness: no connection, old. -/
def wOrphan : Context :=
  { id := "orph", route := "/", csrfToken := [], actionLimiter := false,
    actionRegistry := [], signals := [], patchChan := [],
    ctxDisposedChan := 0, sseConnected := false, createdAt := 0,
    subscriptions := [3] }

/-- Connected context for the reaper witness: same age, live stream. -/
def wLive : Context :=
  { id := "live", route := "/", csrfToken := [], actionLimiter := false,
    actionRegistry := [], signals := [], patchChan := [],
    ctxDisposedChan := 0, sseConnected := true, createdAt := 0,
    subscriptions := [] }

theorem c4_witness :
    ((([wOrphan, wLive] : Registry).map Context.id).Nodup) ∧
    (∀ c ∈ ([wOrphan, wLive] : Registry), c.id ≠ "") ∧
    ((∀ c ∈ ([wOrphan, wLive] : Registry), c.sseConnected = false →
        11 * second - c.createdAt > 10 * second →
        getCtx (reapOrphanedContexts (11 * second) (10 * second) [wOrphan, wLive]).1 c.id = none ∧
        dispose c ∈ (reapOrphanedContexts (11 * second) (10 * second) [wOrphan, wLive]).2) ∧
     (∀ d ∈ (reapOrphanedContexts (11 * second) (10 * second) [wOrphan, wLive]).2,
        1 ≤ d.ctxDisposedChan ∧ d.subscriptions = []) ∧
     (∀ c ∈ ([wOrphan, wLive] : Registry), c.sseConnected = true →
        getCtx (reapOrphanedContexts (11 * second) (10 * second) [wOrphan, wLive]).1 c.id =
          getCtx [wOrphan, wLive] c.id)) :=
  ⟨by decide, by decide,
    c4_reaper_sweep (11 * second) (10 * second) [wOrphan, wLive]
      (by decide) (by decide)⟩

/-- C5 counterexample: the claim says every non-positive ttl disables
the reaper, but with a ttl of exactly zero startReaper does start the
loop, substituting the 30 second default ttl and a 10 second tick. -/
theorem c5_zero_ttl_counterexample :
    startReaper 0 = some (30 * second, 10 * second) ∧
    ¬ startReaper 0 = none := by
  constructor
  · decide
  · decide

/-- C5 amended: only a negative configured ttl disables the reaper
entirely — the eviction loop never starts and a reaper run leaves the
registry untouched, so no session is ever evicted — while a ttl of zero
does not disable it: the loop starts with the conservative default of
30 seconds and a 10 second tick interval. -/
theorem c5_negative_ttl_disables (ttl now : Int) (reg : Registry) (h : ttl < 0) :
    startReaper ttl = none ∧ runReaper ttl now reg = reg ∧
    startReaper 0 = some (30 * second, 10 * second) := by
  have hs : startReaper ttl = none := by simp [startReaper, h]
  refine ⟨hs, ?_, by decide⟩
  simp [runReaper, hs]

theorem c5_witness :
    (-1 : Int) < 0 ∧
    (startReaper (-1) = none ∧ runReaper (-1) 0 [] = ([] : Registry) ∧
     startReaper 0 = some (30 * second, 10 * second)) :=
  ⟨by decide, c5_negative_ttl_disables (-1) 0 [] (by decide)⟩

theorem getCtx_id (reg : Registry) (cID : String) (c : Context)
    (h : getCtx reg cID = some c) : c.id = cID := by
  have hp := List.find?_some h
  simpa using hp

theorem getCtx_updateCtx (reg : Registry) (c c2 : Context) (cID : String)
    (hc : getCtx reg cID = some c) (hid : c2.id = c.id) :
    getCtx (updateCtx reg c2) cID = some c2 := by
  have hcid : c.id = cID := getCtx_id reg cID c hc
  induction reg with
  | nil => simp [getCtx] at hc
  | cons a t ih =>
    by_cases ha : a.id = cID
    · have hfind : getCtx (a :: t) cID = some a := by
        simp [getCtx, List.find?_cons, ha]
      have hac : a = c := Option.some.inj (hfind.symm.trans hc)
      have hhead : (if a.id = c2.id then c2 else a) = c2 := by
        rw [hac, hid.symm]
        simp
      show getCtx ((if a.id = c2.id then c2 else a) :: updateCtx t c2) cID = some c2
      rw [hhead]
      have hc2id : c2.id = cID := hid.trans hcid
      simp [getCtx, List.find?_cons, hc2id]
    · have htail : getCtx t cID = some c := by
        have hh := hc
        simp only [getCtx, List.find?_cons, ha, decide_eq_true_eq, if_false] at hh
        exact hh
      have hhead : (if a.id = c2.id then c2 else a) = a := by
        have hne : a.id ≠ c2.id := by
          rw [hid, hcid]
          exact ha
        simp [hne]
      show getCtx ((if a.id = c2.id then c2 else a) :: updateCtx t c2) cID = some c2
      rw [hhead]
      have hg := ih htail
      simp only [getCtx, List.find?_cons, ha, decide_eq_true_eq, if_false]
      simpa [getCtx] using hg

theorem updateCtx_ids (reg : Registry) (c2 : Context) :
    (updateCtx reg c2).map Context.id = reg.map Context.id := by
  unfold updateCtx
  rw [List.map_map]
  apply List.map_congr_left
  intro x _
  by_cases h : x.id = c2.id <;> simp [h]

/-- C6: once a request passes the anti-forgery check, the session-level
limiter is the first gate consulted (it heads the consultation order
whenever the session has one); a session-level denial rejects with 429
before any per-action gate is consulted; with the session gate passing,
a present per-action limiter that denies rejects with 429; and the
callback is invoked exactly when every present gate allows and the
action entry exists, so the two limiters act as independent gates. -/
theorem c6_rate_limit_gates (reg : Registry) (actionID cID : String)
    (token : List Nat) (inbound : List (String × GoVal))
    (sessionAllow entryAllow : Bool) (c : Context)
    (hc : getCtx reg cID = some c) (ht : token = c.csrfToken) :
    (c.actionLimiter = true →
      (handleAction reg actionID cID token inbound sessionAllow entryAllow).1.gates.head? =
        some Gate.sessionLimiter) ∧
    (c.actionLimiter = true → sessionAllow = false →
      (handleAction reg actionID cID token inbound sessionAllow entryAllow).1.status = 429 ∧
      (handleAction reg actionID cID token inbound sessionAllow entryAllow).1.invoked = false ∧
      (handleAction reg actionID cID token inbound sessionAllow entryAllow).1.gates =
        [Gate.sessionLimiter]) ∧
    (∀ entry, getAction c actionID = some entry →
      (c.actionLimiter = true → sessionAllow = true) →
      entry.hasLimiter = true → entryAllow = false →
      (handleAction reg actionID cID token inbound sessionAllow entryAllow).1.status = 429 ∧
      (handleAction reg actionID cID token inbound sessionAllow entryAllow).1.invoked = false ∧
      Gate.entryLimiter ∈
        (handleAction reg actionID cID token inbound sessionAllow entryAllow).1.gates) ∧
    ((handleAction reg actionID cID token inbound sessionAllow entryAllow).1.invoked = true ↔
      (c.actionLimiter = true → sessionAllow = true) ∧
      ∃ entry, getAction c actionID = some entry ∧
        (entry.hasLimiter = true → entryAllow = true)) := by
  have hcc : constantTimeCompare token c.csrfToken = 1 :=
    (constantTimeCompare_eq_one_iff _ _).mpr ht
  refine ⟨?_, ?_, ?_, ?_⟩
  · intro hal
    by_cases hsa : sessionAllow = true
    · rcases hga : getAction c actionID with _ | entry
      · simp [handleAction, hc, hcc, hal, hsa, hga]
      · by_cases hel : entry.hasLimiter = true ∧ entryAllow = false
        · simp [handleAction, hc, hcc, hal, hsa, hga, hel]
        · rcases hfn : entry.fn with u | p <;>
            simp [handleAction, hc, hcc, hal, hsa, hga, hel, hfn]
    · have hsf : sessionAllow = false := by
        cases sessionAllow
        · rfl
        · exact absurd rfl hsa
      simp [handleAction, hc, hcc, hal, hsf]
  · intro hal hsf
    simp [handleAction, hc, hcc, hal, hsf]
  · intro entry hga hsp hel hef
    have hgate1 : ¬(c.actionLimiter = true ∧ sessionAllow = false) := by
      rintro ⟨h1, h2⟩
      rw [hsp h1] at h2
      cases h2
    refine ⟨?_, ?_, ?_⟩ <;>
      simp [handleAction, hc, hcc, hgate1, hga, hel, hef]
  · constructor
    · intro hinv
      by_cases hgate1 : c.actionLimiter = true ∧ sessionAllow = false
      · simp [handleAction, hc, hcc, hgate1] at hinv
      · rcases hga : getAction c actionID with _ | entry
        · simp [handleAction, hc, hcc, hgate1, hga] at hinv
        · by_cases hgate2 : entry.hasLimiter = true ∧ entryAllow = false
          · simp [handleAction, hc, hcc, hgate1, hga, hgate2] at hinv
          · refine ⟨?_, entry, rfl, ?_⟩
            · intro hal
              cases hsa : sessionAllow with
              | false =>
                subst hsa
                exact absurd ⟨hal, rfl⟩ hgate1
              | true => rfl
            · intro hl
              cases hea : entryAllow with
              | false =>
                subst hea
                exact absurd ⟨hl, rfl⟩ hgate2
              | true => rfl
    · rintro ⟨hsp, entry, hga, hep⟩
      have hgate1 : ¬(c.actionLimiter = true ∧ sessionAllow = false) := by
        rintro ⟨h1, h2⟩
        rw [hsp h1] at h2
        cases h2
      have hgate2 : ¬(entry.hasLimiter = true ∧ entryAllow = false) := by
        rintro ⟨h1, h2⟩
        rw [hep h1] at h2
        cases h2
      rcases hfn : entry.fn with u | p <;>
        simp [handleAction, hc, hcc, hgate1, hga, hgate2, hfn]

/-- Context with both a session-level and a per-action limiter, for the
rate-limit witness. -/
def wGated : Context :=
  { id := "c-g", route := "/", csrfToken := [7], actionLimiter := true,
    actionRegistry := [("ag", ⟨Except.ok (), true⟩)], signals := [],
    patchChan := [], ctxDisposedChan := 0, sseConnected := true,
    createdAt := 0, subscriptions := [] }

theorem c6_witness :
    getCtx [wGated] "c-g" = some wGated ∧ [7] = wGated.csrfToken ∧
    ((wGated.actionLimiter = true →
       (handleAction [wGated] "ag" "c-g" [7] [] false true).1.gates.head? =
         some Gate.sessionLimiter) ∧
     (wGated.actionLimiter = true → false = false →
       (handleAction [wGated] "ag" "c-g" [7] [] false true).1.status = 429 ∧
       (handleAction [wGated] "ag" "c-g" [7] [] false true).1.invoked = false ∧
       (handleAction [wGated] "ag" "c-g" [7] [] false true).1.gates =
         [Gate.sessionLimiter]) ∧
     (∀ entry, getAction wGated "ag" = some entry →
       (wGated.actionLimiter = true → false = true) →
       entry.hasLimiter = true → true = false →
       (handleAction [wGated] "ag" "c-g" [7] [] false true).1.status = 429 ∧
       (handleAction [wGated] "ag" "c-g" [7] [] false true).1.invoked = false ∧
       Gate.entryLimiter ∈
         (handleAction [wGated] "ag" "c-g" [7] [] false true).1.gates) ∧
     ((handleAction [wGated] "ag" "c-g" [7] [] false true).1.invoked = true ↔
       (wGated.actionLimiter = true → false = true) ∧
       ∃ entry, getAction wGated "ag" = some entry ∧
         (entry.hasLimiter = true → true = true))) :=
  ⟨by decide, by decide,
    c6_rate_limit_gates [wGated] "ag" "c-g" [7] [] false true wGated
      (by decide) (by decide)⟩

/-- C7: an action whose callback panics has the panic recovered and
logged by the handler — a total function, so neither the gateway nor the
process dies — the response carries no error status, the registry keeps
the same session ids, the session is still found under its id, and a
subsequent action request on the resulting registry still invokes the
callback. -/
theorem c7_panic_recovered (reg : Registry) (actionID cID : String)
    (token : List Nat) (inbound : List (String × GoVal))
    (sessionAllow entryAllow : Bool) (c : Context) (entry : actionEntry)
    (p : String)
    (hc : getCtx reg cID = some c) (ht : token = c.csrfToken)
    (hs : c.actionLimiter = true → sessionAllow = true)
    (he : getAction c actionID = some entry)
    (hl : entry.hasLimiter = true → entryAllow = true)
    (hp : entry.fn = Except.error p) :
    (handleAction reg actionID cID token inbound sessionAllow entryAllow).1.invoked = true ∧
    (handleAction reg actionID cID token inbound sessionAllow entryAllow).1.panicRecovered =
      some p ∧
    (handleAction reg actionID cID token inbound sessionAllow entryAllow).1.status = 200 ∧
    (handleAction reg actionID cID token inbound sessionAllow entryAllow).2.map Context.id =
      reg.map Context.id ∧
    getCtx (handleAction reg actionID cID token inbound sessionAllow entryAllow).2 cID =
      some { c with signals := injectSignals c.signals inbound } ∧
    (handleAction (handleAction reg actionID cID token inbound sessionAllow entryAllow).2
        actionID cID token inbound true true).1.invoked = true := by
  have hcc : constantTimeCompare token c.csrfToken = 1 :=
    (constantTimeCompare_eq_one_iff _ _).mpr ht
  have hgate1 : ¬(c.actionLimiter = true ∧ sessionAllow = false) := by
    rintro ⟨h1, h2⟩
    rw [hs h1] at h2
    cases h2
  have hgate2 : ¬(entry.hasLimiter = true ∧ entryAllow = false) := by
    rintro ⟨h1, h2⟩
    rw [hl h1] at h2
    cases h2
  have hrun : handleAction reg actionID cID token inbound sessionAllow entryAllow =
      (⟨200, (if c.actionLimiter then [Gate.sessionLimiter] else []) ++
          (if entry.hasLimiter then [Gate.entryLimiter] else []), true, true, some p⟩,
        updateCtx reg { c with signals := injectSignals c.signals inbound }) := by
    simp [handleAction, hc, hcc, hgate1, he, hgate2, hp]
  have hg2 : getCtx (updateCtx reg { c with signals := injectSignals c.signals inbound }) cID =
      some { c with signals := injectSignals c.signals inbound } :=
    getCtx_updateCtx reg c _ cID hc rfl
  refine ⟨by rw [hrun], by rw [hrun], by rw [hrun], ?_, ?_, ?_⟩
  · rw [hrun]
    exact updateCtx_ids reg _
  · rw [hrun]
    exact hg2
  · rw [hrun]
    have he2 : List.lookup actionID c.actionRegistry = some entry := he
    simp [handleAction, getAction, hg2, hcc, he2, hp]

/-- Context whose only action panics, for the panic-recovery witness. -/
def wPanicCtx : Context :=
  { id := "c-p", route := "/", csrfToken := [5], actionLimiter := false,
    actionRegistry := [("ap", ⟨Except.error "boom", false⟩)], signals := [],
    patchChan := [], ctxDisposedChan := 0, sseConnected := true,
    createdAt := 0, subscriptions := [] }

theorem c7_witness :
    getCtx [wPanicCtx] "c-p" = some wPanicCtx ∧
    getAction wPanicCtx "ap" = some ⟨Except.error "boom", false⟩ ∧
    ((handleAction [wPanicCtx] "ap" "c-p" [5] [] true true).1.invoked = true ∧
     (handleAction [wPanicCtx] "ap" "c-p" [5] [] true true).1.panicRecovered = some "boom" ∧
     (handleAction [wPanicCtx] "ap" "c-p" [5] [] true true).1.status = 200 ∧
     (handleAction [wPanicCtx] "ap" "c-p" [5] [] true true).2.map Context.id =
       [wPanicCtx].map Context.id ∧
     getCtx (handleAction [wPanicCtx] "ap" "c-p" [5] [] true true).2 "c-p" =
       some { wPanicCtx with signals := injectSignals wPanicCtx.signals [] } ∧
     (handleAction (handleAction [wPanicCtx] "ap" "c-p" [5] [] true true).2
         "ap" "c-p" [5] [] true true).1.invoked = true) :=
  ⟨by decide, by decide,
    c7_panic_recovered [wPanicCtx] "ap" "c-p" [5] [] true true wPanicCtx
      ⟨Except.error "boom", false⟩ "boom" (by decide) (by decide)
      (by decide) (by decide) (by decide) rfl⟩

/-- C8: a sync submits the elements patch unconditionally and first,
submits a value-delta patch only when the dirty delta is non-empty (and
then directly after the elements patch, carrying the encoded delta), the
delta holds exactly the signals whose dirty flag is set, each rendered
to its string form, and a failed render aborts the sync with nothing
submitted (the error is consumed by logging, not propagated: syncPatches
is total and returns the empty submission list). -/
theorem c8_sync_patches (render : Except String String) (m : SigMap)
    (hm : errFree m) :
    (∀ e, render = Except.error e → syncPatches render m = []) ∧
    (∀ html, render = Except.ok html →
      ((syncPatches render m).head? = some ⟨PatchType.elements, html⟩ ∧
       (prepareSignalsForPatch m = [] →
         syncPatches render m = [⟨PatchType.elements, html⟩]) ∧
       (prepareSignalsForPatch m ≠ [] →
         syncPatches render m =
           [⟨PatchType.elements, html⟩,
            ⟨PatchType.signals, encodeSignals (prepareSignalsForPatch m)⟩]))) ∧
    (∀ sigID sval, (sigID, sval) ∈ prepareSignalsForPatch m ↔
      ∃ s, s ∈ m ∧ s.id = sigID ∧ s.changed = true ∧ sval = s.val.sprint) := by
  refine ⟨?_, ?_, ?_⟩
  · intro e he
    rw [he]
    rfl
  · intro html hh
    subst hh
    by_cases hd : prepareSignalsForPatch m = []
    · refine ⟨?_, fun _ => ?_, fun hne => absurd hd hne⟩ <;>
        simp [syncPatches, hd]
    · have hlen : ¬ (prepareSignalsForPatch m).length = 0 := by
        intro h0
        exact hd (List.length_eq_zero.mp h0)
      refine ⟨?_, fun heq => absurd heq hd, fun _ => ?_⟩ <;>
        simp [syncPatches, hlen]
  · intro sigID sval
    unfold prepareSignalsForPatch
    rw [List.mem_filterMap]
    constructor
    · rintro ⟨s, hs, hf⟩
      by_cases he : s.err = none
      · by_cases hch : s.changed = true
        · simp only [he, hch, if_true] at hf
          rw [Option.some.injEq, Prod.mk.injEq] at hf
          exact ⟨s, hs, hf.1, hch, hf.2.symm⟩
        · simp [he, hch] at hf
      · simp [he] at hf
    · rintro ⟨s, hs, hid, hch, hv⟩
      refine ⟨s, hs, ?_⟩
      simp [hm s hs, hch, hid, hv]

/-- Signal map with one dirty signal, for the sync witnesses. -/
def c8SigMap : SigMap := [⟨"s1", GoVal.str "x", true, none⟩]

theorem c8_witness :
    errFree c8SigMap ∧
    ((∀ e : String, (Except.ok "h" : Except String String) = Except.error e →
        syncPatches (Except.ok "h") c8SigMap = []) ∧
     (∀ html, (Except.ok "h" : Except String String) = Except.ok html →
       ((syncPatches (Except.ok "h") c8SigMap).head? =
          some ⟨PatchType.elements, html⟩ ∧
        (prepareSignalsForPatch c8SigMap = [] →
          syncPatches (Except.ok "h") c8SigMap = [⟨PatchType.elements, html⟩]) ∧
        (prepareSignalsForPatch c8SigMap ≠ [] →
          syncPatches (Except.ok "h") c8SigMap =
            [⟨PatchType.elements, html⟩,
             ⟨PatchType.signals, encodeSignals (prepareSignalsForPatch c8SigMap)⟩]))) ∧
     (∀ sigID sval, (sigID, sval) ∈ prepareSignalsForPatch c8SigMap ↔
       ∃ s, s ∈ c8SigMap ∧ s.id = sigID ∧ s.changed = true ∧
         sval = s.val.sprint)) :=
  ⟨by
      intro s hs
      simp only [c8SigMap, List.mem_singleton] at hs
      subst hs
      rfl,
    c8_sync_patches (Except.ok "h") c8SigMap
      (by
        intro s hs
        simp only [c8SigMap, List.mem_singleton] at hs
        subst hs
        rfl)⟩

/-- C9 counterexample: after a first sync — which leaves every dirty
flag set — a second sync with no intervening mutation still computes a
non-empty value delta and submits a signal-delta patch again, contrary
to the claim that the second delta is empty and its patch suppressed. -/
theorem c9_second_sync_counterexample :
    prepareSignalsForPatch (Sync (Except.ok "h") c8SigMap).2 ≠ [] ∧
    Patch.mk PatchType.signals
        (encodeSignals (prepareSignalsForPatch (Sync (Except.ok "h") c8SigMap).2)) ∈
      (Sync (Except.ok "h") (Sync (Except.ok "h") c8SigMap).2).1 := by
  constructor
  · decide
  · decide

/-- C9 amended: sync does not mutate the signal map — in particular the
dirty flags are not cleared — so a second sync with no intervening
mutation submits exactly the same patch sequence as the first: an
elements patch both times, and the same value-delta patch again; the
second value-delta is suppressed only when the delta was already empty
the first time. -/
theorem c9_sync_twice_amended (render : Except String String) (m : SigMap) :
    (Sync render m).2 = m ∧
    (Sync render ((Sync render m).2)).1 = (Sync render m).1 ∧
    (∀ html, render = Except.ok html →
      ((Sync render ((Sync render m).2)).1).head? =
        some ⟨PatchType.elements, html⟩) := by
  refine ⟨rfl, rfl, ?_⟩
  intro html hh
  subst hh
  by_cases hd : (prepareSignalsForPatch m).length = 0 <;>
    simp [Sync, syncPatches, hd]

theorem c9_witness :
    (Sync (Except.ok "h") c8SigMap).2 = c8SigMap ∧
    (Sync (Except.ok "h") ((Sync (Except.ok "h") c8SigMap).2)).1 =
      (Sync (Except.ok "h") c8SigMap).1 ∧
    (∀ html, (Except.ok "h" : Except String String) = Except.ok html →
      ((Sync (Except.ok "h") ((Sync (Except.ok "h") c8SigMap).2)).1).head? =
        some ⟨PatchType.elements, html⟩) :=
  c9_sync_twice_amended (Except.ok "h") c8SigMap

/-- C10 counterexample: on a first connect (reconnect flag false) the
one-shot initial synchronization still submits an elements patch — the
handler spawns a full Sync without consulting the reconnect flag —
contradicting the claimed value-only synchronization for first
connects. -/
theorem c10_first_connect_counterexample :
    Patch.mk PatchType.elements "h" ∈ sseInitialSync false (Except.ok "h") [] := by
  decide

/-- C10 amended: after the sentinel frame, the one-shot initial
synchronization is the full Sync submission — elements plus any dirty
values — for first connects and reconnects alike: it does not depend on
the reconnect flag, and whenever rendering succeeds its first submitted
patch is the elements patch. -/
theorem c10_initial_sync_amended (isReconnect : Bool)
    (render : Except String String) (m : SigMap) :
    sseInitialSync isReconnect render m = syncPatches render m ∧
    sseInitialSync isReconnect render m = sseInitialSync (!isReconnect) render m ∧
    (∀ html, render = Except.ok html →
      (sseInitialSync isReconnect render m).head? =
        some ⟨PatchType.elements, html⟩) := by
  refine ⟨rfl, rfl, ?_⟩
  intro html hh
  subst hh
  by_cases hd : (prepareSignalsForPatch m).length = 0 <;>
    simp [sseInitialSync, syncPatches, hd]

theorem c10_witness :
    sseInitialSync false (Except.ok "h") c8SigMap =
      syncPatches (Except.ok "h") c8SigMap ∧
    sseInitialSync false (Except.ok "h") c8SigMap =
      sseInitialSync (!false) (Except.ok "h") c8SigMap ∧
    (∀ html, (Except.ok "h" : Except String String) = Except.ok html →
      (sseInitialSync false (Except.ok "h") c8SigMap).head? =
        some ⟨PatchType.elements, html⟩) :=
  c10_initial_sync_amended false (Except.ok "h") c8SigMap

end Via
